import Mathlib

/-!
Verification development for the recipe-book repository.

Numbers that the program manipulates (ingredient quantities, servings
ratios) are modelled as exact rationals `ℚ`; the spec itself describes the
scaling arithmetic over reals and prescribes a final rounding step "to
suppress floating-point noise", so the exact-rational model is the
intended semantics.  Strings are Lean `String`s (lists of characters).

Sources embedded below:
* `src/src/components/Timer.tsx` — `formatQuantity`, `PortionCalculator`
  (ratio computation, servings state updates);
* `src/unnamed/part_001` — the retrying fetch client (`makeRequest`);
* `src/unnamed/part_010` — the `/api/recipes` router;
* `src/src/api/ingredients.ts` — the `/api/ingredients` router;
* `src/src/db/database.ts` — the relational schema (cascade delete).
-/

namespace RecipeBook

/-! ### Exact JS-number arithmetic
`qmul` is exact rational multiplication written through `mkRat` so that it
evaluates by kernel reduction; `qmul_eq_mul` proves it is ordinary
multiplication.  `jsRound` is `Math.round`: for `x = num/den` (den > 0),
`Math.round x = ⌊x + 1/2⌋ = (2·num + den) / (2·den)` with Euclidean
division. -/

/-- Exact rational multiplication (same function as `·*·`, stated in a
kernel-computable form). -/
def qmul (a b : ℚ) : ℚ := mkRat (a.num * b.num) (a.den * b.den)

/-- `qmul` is multiplication. -/
theorem qmul_eq_mul (a b : ℚ) : qmul a b = a * b := by
  rw [qmul, Rat.mkRat_eq_div]
  conv_rhs => rw [← Rat.num_div_den a, ← Rat.num_div_den b]
  push_cast
  ring

/-- `Math.round` on an exact rational: `⌊x + 1/2⌋`. -/
def jsRound (x : ℚ) : ℤ := (2 * x.num + x.den) / (2 * x.den)

/-- `jsRound` is the floor of `x + 1/2`. -/
theorem jsRound_eq_floor (x : ℚ) : jsRound x = ⌊x + 1 / 2⌋ := by
  have hd0 : (0 : ℚ) < (x.den : ℚ) := by exact_mod_cast x.pos
  have hxval : x + 1 / 2 = ((2 * x.num + (x.den : ℤ) : ℤ) : ℚ) / ((2 * x.den : ℕ) : ℚ) := by
    conv_lhs => rw [← Rat.num_div_den x]
    push_cast
    field_simp
    ring
  rw [hxval, Rat.floor_intCast_div_natCast]
  simp only [jsRound]
  norm_cast

theorem jsRound_nonneg (x : ℚ) (hx : 0 ≤ x) : 0 ≤ jsRound x := by
  have h1 : 0 ≤ x.num := Rat.num_nonneg.mpr hx
  have h2 : (0 : ℤ) < (x.den : ℤ) := by exact_mod_cast x.pos
  exact Int.ediv_nonneg (by omega) (by omega)

/-! ### Scaling engine (`src/src/components/Timer.tsx`, PortionCalculator section) -/

/-- `Math.round(quantity * 100)` from `formatQuantity`: the displayed value
is `round2 q / 100`, represented by the integer `round2 q` of hundredths. -/
def round2 (q : ℚ) : ℤ := jsRound (qmul q 100)

/-- A decimal digit character, as rendered by `toFixed`/`toString`. -/
def digitChar (k : ℕ) : Char :=
  match k with
  | 0 => '0' | 1 => '1' | 2 => '2' | 3 => '3' | 4 => '4'
  | 5 => '5' | 6 => '6' | 7 => '7' | 8 => '8' | _ => '9'

/-- `(n / 100).toFixed(2)` for the nonnegative value `n / 100`: the integer
part followed by `.` and the two fractional digits. -/
def toFixed2 (n : ℤ) : String :=
  toString (n / 100) ++ "." ++
    String.mk [digitChar ((n % 100).toNat / 10), digitChar ((n % 100).toNat % 10)]

/-- `s.replace(/\.?0+$/, '')` from `formatQuantity`: remove a maximal
trailing run of `0`s together with a `.` immediately before it; the string
is unchanged when it does not end in `0`. -/
def stripTrailZeros (s : String) : String :=
  if (s.data.reverse.takeWhile (· == '0')).isEmpty then s
  else
    let rest := s.data.reverse.dropWhile (· == '0')
    if rest.head? = some '.' then String.mk rest.tail.reverse
    else String.mk rest.reverse

/-- `formatQuantity` (Timer.tsx lines 431–438).  With `n = round2 q`, the
JS value `rounded` is exactly `n / 100`; `rounded === Math.floor(rounded)`
holds iff `n % 100 = 0`, in which case `rounded.toString()` prints the
integer `n / 100`; otherwise `rounded.toFixed(2)` is `toFixed2 n` and the
regex strips its trailing zeros. -/
def formatQuantity (q : ℚ) : String :=
  if round2 q % 100 = 0 then toString (round2 q / 100)
  else stripTrailZeros (toFixed2 (round2 q))

/-- `ratio = currentServings / originalServings` (Timer.tsx, the
`useMemo` ratio), as an exact rational. -/
def servingsRatio (currentServings originalServings : ℕ) : ℚ :=
  mkRat currentServings originalServings

/-- `adjustedQuantity = ingredient.quantity * ratio` (Timer.tsx). -/
def adjustedQuantity (quantity : ℚ) (ratio : ℚ) : ℚ := qmul quantity ratio

theorem servingsRatio_eq_div (s s₀ : ℕ) :
    servingsRatio s s₀ = (s : ℚ) / (s₀ : ℚ) := by
  rw [servingsRatio, Rat.mkRat_eq_div]
  norm_num

/-! Spec-side formatting, following the spec's words: "round to 2 decimal
places …, then strip trailing zeros and a trailing decimal point". -/

/-- Spec-side: strip trailing `0` characters. -/
def dropTrailingZeros (l : List Char) : List Char :=
  (l.reverse.dropWhile (· == '0')).reverse

/-- Spec-side: strip one trailing `.` if present. -/
def dropTrailingDot (l : List Char) : List Char :=
  if l.reverse.head? = some '.' then l.reverse.tail.reverse else l

/-- Spec-side display: round to 2 decimal places, render with two
decimals, strip trailing zeros, strip a trailing decimal point. -/
def specDisplay (x : ℚ) : String :=
  String.mk (dropTrailingDot (dropTrailingZeros (toFixed2 (round2 x)).data))

/-! ### Servings state (`src/src/components/Timer.tsx`, PortionCalculator) -/

/-- One user interaction with the servings control.  `input v` models the
change handler: `v = none` when `parseInt(value, 10)` is `NaN`
(non-numeric input), otherwise the parsed integer. -/
inductive PortionOp
  | decrease
  | increase
  | reset
  | input (parsed : Option ℤ)
deriving DecidableEq, Repr

/-- The four `setCurrentServings` updates: `handleDecrease` clamps at 1
(`Math.max(1, prev - 1)`), `handleIncrease` adds 1, `handleReset` restores
the prop, and `handleInputChange` accepts only a parsed value `≥ 1`
(`!isNaN(value) && value >= 1`), keeping the previous state otherwise. -/
def applyOp (originalServings : ℤ) (current : ℤ) : PortionOp → ℤ
  | .decrease => max 1 (current - 1)
  | .increase => current + 1
  | .reset => originalServings
  | .input none => current
  | .input (some v) => if 1 ≤ v then v else current

/-- Fold a sequence of interactions from the initial state
`useState(originalServings)`. -/
def runOps (originalServings : ℤ) (ops : List PortionOp) : ℤ :=
  ops.foldl (applyOp originalServings) originalServings

/-! ### Retrying fetch client (`src/unnamed/part_001`, `makeRequest`) -/

/-- What one underlying `fetchWithTimeout` call produces: an HTTP
response with a status, a timeout abort (`TimeoutError`), or a
transport-level rejection carrying the thrown `Error`'s message. -/
inductive Outcome
  | resp (status : ℕ)
  | timeout
  | transport (message : String)
deriving DecidableEq, Repr

/-- The client error taxonomy of `apiErrors`: `ApiError` (with its HTTP
status), `TimeoutError`, `NetworkError`, and a re-thrown generic `Error`
with its message. -/
inductive ClientError
  | apiError (statusCode : ℕ)
  | timeoutError
  | networkError
  | genericError (message : String)
deriving DecidableEq, Repr

def DEFAULT_RETRIES : ℕ := 2

/-- `pat` is an initial segment of `cs`. -/
def matchesAt : List Char → List Char → Bool
  | [], _ => true
  | _ :: _, [] => false
  | p :: ps, c :: cs => p == c && matchesAt ps cs

/-- `s.includes(pat)` of JS strings. -/
def strContains (s pat : String) : Bool :=
  (List.range (s.data.length + 1)).any fun i => matchesAt pat.data (s.data.drop i)

/-- The `try` body of one loop iteration of `makeRequest`: a non-ok
response (`response.ok` is status 200–299) throws an `ApiError` carrying
the status (both `throw new ApiError(...)` sites construct the same
value); a timeout abort throws `TimeoutError`; a transport rejection
rethrows the underlying `Error`.  A success returns the payload
(represented by its status). -/
def classifyOutcome : Outcome → Except ClientError ℕ
  | .resp status =>
    if 200 ≤ status ∧ status < 300 then .ok status else .error (.apiError status)
  | .timeout => .error .timeoutError
  | .transport m => .error (.genericError m)

/-- The catch-block guard
`error instanceof ApiError && error.statusCode >= 400 && error.statusCode < 500`:
such an error is rethrown immediately (never retried).  Note that this
range includes 429. -/
def isTerminal : ClientError → Bool
  | .apiError s => decide (400 ≤ s) && decide (s < 500)
  | _ => false

/-- An outcome the retry loop treats as a transient failure: the attempt
throws, and the catch-block guard does not classify the error as
terminal. -/
def retryableFail (o : Outcome) : Prop :=
  ∃ e, classifyOutcome o = .error e ∧ isTerminal e = false

/-- The after-loop classification of `lastError`: `ApiError` and
`TimeoutError` are rethrown as they are; an `Error` whose message contains
"fetch" or "network" becomes `NetworkError`; anything else is rethrown
unchanged. -/
def finalizeErr : ClientError → ClientError
  | .apiError s => .apiError s
  | .timeoutError => .timeoutError
  | .networkError => .networkError
  | .genericError m =>
    if strContains m "fetch" || strContains m "network" then .networkError
    else .genericError m

/-- The retry loop of `makeRequest`, driven by the list of outcomes of the
successive underlying calls.  `retries` is the remaining retry budget
(`retries - attempt` in the source); the result pairs the number of
underlying calls made with the final outcome.  The empty-list case is
unreachable when enough outcomes are supplied. -/
def makeRequest (retries : ℕ) : List Outcome → ℕ × Except ClientError ℕ
  | [] => (0, .error (.genericError "Request failed after retries"))
  | o :: rest =>
    match classifyOutcome o with
    | .ok status => (1, .ok status)
    | .error e =>
      if isTerminal e then (1, .error e)
      else if retries = 0 then (1, .error (finalizeErr e))
      else
        let r := makeRequest (retries - 1) rest
        (r.1 + 1, r.2)

/-! ### Server data model (`src/src/db/database.ts` schema) and API layer -/

/-- A JSON value in a request payload.  Only numbers and strings are
distinguished; other JSON values (booleans, objects, null) fail the same
`typeof` checks as a value of the wrong one of these two kinds, so they
are not modelled separately. -/
inductive JsVal
  | num (val : ℚ)
  | str (val : String)
deriving DecidableEq, Repr

structure FieldError where
  field : String
  message : String
deriving DecidableEq, Repr

/-- The domain errors thrown by the routers (`src/unnamed/part_002`):
`ValidationError` (HTTP 400, with field details), `NotFoundError` (404),
`ConflictError` (409). -/
inductive Failure
  | validation (details : List FieldError)
  | notFound
  | conflict
deriving DecidableEq, Repr

/-- The HTTP status each domain error maps to at the API boundary. -/
def Failure.status : Failure → ℕ
  | .validation _ => 400
  | .notFound => 404
  | .conflict => 409

def isJsSpace (c : Char) : Bool := c == ' ' || c == '\t' || c == '\n' || c == '\r'

/-- JS `String.prototype.trim` (over the ASCII whitespace the payloads
use). -/
def jsTrim (s : String) : String :=
  String.mk ((s.data.dropWhile isJsSpace).reverse.dropWhile isJsSpace).reverse

/-- `toLowerCase()` / SQL `LOWER()`. -/
def jsToLower (s : String) : String := String.mk (s.data.map Char.toLower)

/-- A `recipes` table row.  `prep_time`, `cook_time` and `servings` are
stored as the numeric values the validated payload supplied. -/
structure RecipeRow where
  id : ℕ
  name : String
  description : Option String
  instructions : String
  prep_time : ℚ
  cook_time : ℚ
  servings : ℚ
deriving DecidableEq, Repr

/-- An `ingredients` table row. -/
structure IngredientRow where
  id : ℕ
  name : String
  unit : String
deriving DecidableEq, Repr

/-- A `recipe_ingredients` junction row. -/
structure RecipeIngredientRow where
  recipe_id : ℕ
  ingredient_id : ℕ
  quantity : ℚ
deriving DecidableEq, Repr

/-- The relational store: the three tables plus the autoincrement
counters. -/
structure Db where
  recipes : List RecipeRow
  ingredients : List IngredientRow
  recipe_ingredients : List RecipeIngredientRow
  nextRecipeId : ℕ
  nextIngredientId : ℕ
deriving DecidableEq, Repr

/-- One entry of a request's `ingredients` array.  `ingredient_id = 0`
models a missing/falsy id (JS `0`, `undefined`, `null` are all falsy). -/
structure IngredientEntry where
  ingredient_id : ℕ
  quantity : Option JsVal
deriving DecidableEq, Repr

/-- A `POST/PUT /api/recipes` body; `none` is an absent field. -/
structure RecipePayload where
  name : Option JsVal := none
  description : Option JsVal := none
  instructions : Option JsVal := none
  prep_time : Option JsVal := none
  cook_time : Option JsVal := none
  servings : Option JsVal := none
  ingredients : Option (List IngredientEntry) := none
deriving DecidableEq, Repr

/-- `!name || typeof name !== 'string' || name.trim().length === 0`. -/
def nameRequiredError (v : Option JsVal) : Bool :=
  match v with
  | some (.str s) => jsTrim s == ""
  | _ => true

/-- `name !== undefined && (typeof name !== 'string' || name.trim().length === 0)`. -/
def nameOptionalError (v : Option JsVal) : Bool :=
  match v with
  | none => false
  | some (.str s) => jsTrim s == ""
  | some _ => true

/-- `x !== undefined && (typeof x !== 'number' || x < 0)`. -/
def nonNegNumberError (v : Option JsVal) : Bool :=
  match v with
  | none => false
  | some (.num q) => decide (q < 0)
  | some _ => true

/-- `servings !== undefined && (typeof servings !== 'number' || servings < 1)`. -/
def servingsError (v : Option JsVal) : Bool :=
  match v with
  | none => false
  | some (.num q) => decide (q < 1)
  | some _ => true

/-- Validation of `POST /api/recipes` (part_010 lines 78–106).  The
`ingredients`-must-be-an-array check cannot fire here because the field is
typed as a list. -/
def validateRecipeCreate (p : RecipePayload) : List FieldError :=
  (if nameRequiredError p.name then [⟨"name", "Name is required"⟩] else []) ++
  (if nameRequiredError p.instructions then
    [⟨"instructions", "Instructions are required"⟩] else []) ++
  (if nonNegNumberError p.prep_time then
    [⟨"prep_time", "Prep time must be a non-negative number"⟩] else []) ++
  (if nonNegNumberError p.cook_time then
    [⟨"cook_time", "Cook time must be a non-negative number"⟩] else []) ++
  (if servingsError p.servings then
    [⟨"servings", "Servings must be at least 1"⟩] else [])

/-- Validation of `PUT /api/recipes/:id` (part_010 lines 185–211): as for
create, but `name`/`instructions` are only checked when present. -/
def validateRecipeUpdate (p : RecipePayload) : List FieldError :=
  (if nameOptionalError p.name then [⟨"name", "Name cannot be empty"⟩] else []) ++
  (if nameOptionalError p.instructions then
    [⟨"instructions", "Instructions cannot be empty"⟩] else []) ++
  (if nonNegNumberError p.prep_time then
    [⟨"prep_time", "Prep time must be a non-negative number"⟩] else []) ++
  (if nonNegNumberError p.cook_time then
    [⟨"cook_time", "Cook time must be a non-negative number"⟩] else []) ++
  (if servingsError p.servings then
    [⟨"servings", "Servings must be at least 1"⟩] else [])

/-- The per-entry insert guard of both recipe routes:
`if (ing.ingredient_id && typeof ing.quantity === 'number')` — rows are
persisted for truthy ids and numeric quantities, all others are silently
dropped.  There is no check on the sign of `quantity`. -/
def entryLink (recipeId : ℕ) (e : IngredientEntry) : Option RecipeIngredientRow :=
  match e.quantity with
  | some (.num q) => if e.ingredient_id ≠ 0 then some ⟨recipeId, e.ingredient_id, q⟩ else none
  | _ => none

def getNumOr (dflt : ℚ) (v : Option JsVal) : ℚ :=
  match v with
  | some (.num q) => q
  | _ => dflt

/-- `POST /api/recipes` (part_010 lines 72–164): validate, insert the
recipe row (`prep_time || 0`, `cook_time || 0`, `servings || 1`,
`description?.trim() || null`), then insert the filtered ingredient links.
The final `match` arm is unreachable: empty validation errors force
`name` and `instructions` to be nonempty strings. -/
def postRecipe (db : Db) (p : RecipePayload) : Except Failure (ℕ × Db × ℕ) :=
  let errors := validateRecipeCreate p
  if errors ≠ [] then .error (.validation errors)
  else
    match p.name, p.instructions with
    | some (.str nm), some (.str ins) =>
      let rid := db.nextRecipeId
      let row : RecipeRow :=
        { id := rid
          name := jsTrim nm
          description := (match p.description with
            | some (.str d) => if jsTrim d == "" then none else some (jsTrim d)
            | _ => none)
          instructions := jsTrim ins
          prep_time := getNumOr 0 p.prep_time
          cook_time := getNumOr 0 p.cook_time
          servings := getNumOr 1 p.servings }
      let links := (p.ingredients.getD []).filterMap (entryLink rid)
      .ok (201, { db with
        recipes := db.recipes ++ [row]
        recipe_ingredients := db.recipe_ingredients ++ links
        nextRecipeId := rid + 1 }, rid)
    | _, _ => .error (.validation errors)

/-- The dynamic `UPDATE recipes SET ...` of the PUT route: each present
field overwrites the stored one. -/
def recipeFieldUpdate (r : RecipeRow) (p : RecipePayload) : RecipeRow :=
  { r with
    name := (match p.name with | some (.str s) => jsTrim s | _ => r.name)
    description := (match p.description with
      | some (.str d) => if jsTrim d == "" then none else some (jsTrim d)
      | some _ => none
      | none => r.description)
    instructions := (match p.instructions with | some (.str s) => jsTrim s | _ => r.instructions)
    prep_time := (match p.prep_time with | some (.num q) => q | _ => r.prep_time)
    cook_time := (match p.cook_time with | some (.num q) => q | _ => r.cook_time)
    servings := (match p.servings with | some (.num q) => q | _ => r.servings) }

/-- `PUT /api/recipes/:id` (part_010 lines 167–290): 404 when absent,
validate, update the row, and when `ingredients` is supplied replace the
whole link set (DELETE then filtered INSERTs). -/
def putRecipe (db : Db) (recipeId : ℕ) (p : RecipePayload) : Except Failure (ℕ × Db) :=
  if (db.recipes.find? (fun r => r.id == recipeId)).isNone then .error .notFound
  else
    let errors := validateRecipeUpdate p
    if errors ≠ [] then .error (.validation errors)
    else
      let recipes' := db.recipes.map fun r =>
        if r.id == recipeId then recipeFieldUpdate r p else r
      let links' := (match p.ingredients with
        | none => db.recipe_ingredients
        | some entries =>
          db.recipe_ingredients.filter (fun l => l.recipe_id != recipeId) ++
            entries.filterMap (entryLink recipeId))
      .ok (200, { db with recipes := recipes', recipe_ingredients := links' })

/-- `GET /api/recipes/:id`: 404 when no row matches (the ingredient join
is omitted; only the status behaviour is needed here). -/
def getRecipe (db : Db) (recipeId : ℕ) : Except Failure (ℕ × RecipeRow) :=
  match db.recipes.find? (fun r => r.id == recipeId) with
  | none => .error .notFound
  | some r => .ok (200, r)

/-- The effect of `DELETE FROM recipes WHERE id = ?` under the schema's
`ON DELETE CASCADE` on `recipe_ingredients.recipe_id`
(`src/src/db/database.ts` lines 52–62). -/
def cascadeDeleteRecipe (db : Db) (recipeId : ℕ) : Db :=
  { db with
    recipes := db.recipes.filter (fun r => r.id != recipeId)
    recipe_ingredients := db.recipe_ingredients.filter (fun l => l.recipe_id != recipeId) }

/-- `DELETE /api/recipes/:id` (part_010 lines 293–316). -/
def deleteRecipe (db : Db) (recipeId : ℕ) : Except Failure (ℕ × Db) :=
  match db.recipes.find? (fun r => r.id == recipeId) with
  | none => .error .notFound
  | some _ => .ok (204, cascadeDeleteRecipe db recipeId)

/-! ### Ingredients router (`src/src/api/ingredients.ts`) -/

def validUnits : List String := ["g", "ml", "piece", "tbsp", "tsp", "cup", "pinch"]

/-- A `POST/PUT /api/ingredients` body. -/
structure IngredientPayload where
  name : Option JsVal := none
  unit : Option JsVal := none
deriving DecidableEq, Repr

/-- `unit !== undefined && !validUnits.includes(unit)` (`includes` uses
strict equality, so a non-string never matches). -/
def unitError (v : Option JsVal) : Bool :=
  match v with
  | none => false
  | some (.str u) => !(validUnits.contains u)
  | some _ => true

/-- The two `name` checks of the POST route (lines 69–77). -/
def ingredientNameErrors (v : Option JsVal) : List FieldError :=
  match v with
  | some (.str s) =>
    (if jsTrim s == "" then [⟨"name", "Name is required"⟩] else []) ++
    (if 100 < (jsTrim s).length then
      [⟨"name", "Name must be less than 100 characters"⟩] else [])
  | _ => [⟨"name", "Name is required"⟩]

def validateIngredientCreate (p : IngredientPayload) : List FieldError :=
  ingredientNameErrors p.name ++
    (if unitError p.unit then
      [⟨"unit", "Unit must be one of: g, ml, piece, tbsp, tsp, cup, pinch"⟩] else [])

/-- The `name` checks of the PUT route (lines 134–141): only when
present. -/
def ingredientNameUpdateErrors (v : Option JsVal) : List FieldError :=
  match v with
  | none => []
  | some (.str s) =>
    if jsTrim s == "" then [⟨"name", "Name cannot be empty"⟩]
    else if 100 < (jsTrim s).length then
      [⟨"name", "Name must be less than 100 characters"⟩]
    else []
  | some _ => [⟨"name", "Name cannot be empty"⟩]

def validateIngredientUpdate (p : IngredientPayload) : List FieldError :=
  ingredientNameUpdateErrors p.name ++
    (if unitError p.unit then
      [⟨"unit", "Unit must be one of: g, ml, piece, tbsp, tsp, cup, pinch"⟩] else [])

/-- `POST /api/ingredients` (lines 62–110): validate, check
`SELECT * FROM ingredients WHERE LOWER(name) = LOWER(?)` on the trimmed
name (409 on a hit), insert with `unit || 'piece'`.  The final arm is
unreachable when validation passed. -/
def postIngredient (db : Db) (p : IngredientPayload) : Except Failure (ℕ × Db × ℕ) :=
  let errors := validateIngredientCreate p
  if errors ≠ [] then .error (.validation errors)
  else
    match p.name with
    | some (.str nm) =>
      if (db.ingredients.find? fun i => jsToLower i.name == jsToLower (jsTrim nm)).isSome
      then .error .conflict
      else
        let iid := db.nextIngredientId
        let row : IngredientRow :=
          ⟨iid, jsTrim nm, (match p.unit with | some (.str u) => u | _ => "piece")⟩
        .ok (201, { db with
          ingredients := db.ingredients ++ [row]
          nextIngredientId := iid + 1 }, iid)
    | _ => .error (.validation errors)

/-- `PUT /api/ingredients/:id` (lines 113–186): 404 when absent,
validate, then — only when the new trimmed name differs case-insensitively
from the record's own — check
`LOWER(name) = LOWER(?) AND id != ?` (409 on a hit), then update. -/
def putIngredient (db : Db) (ingredientId : ℕ) (p : IngredientPayload) :
    Except Failure (ℕ × Db) :=
  match db.ingredients.find? (fun i => i.id == ingredientId) with
  | none => .error .notFound
  | some existing =>
    let errors := validateIngredientUpdate p
    if errors ≠ [] then .error (.validation errors)
    else
      let dup := (match p.name with
        | some (.str nm) =>
          jsToLower (jsTrim nm) != jsToLower existing.name &&
            (db.ingredients.find? fun (i : IngredientRow) =>
              jsToLower i.name == jsToLower (jsTrim nm) && i.id != ingredientId).isSome
        | _ => false)
      if dup then .error .conflict
      else
        let ingredients' := db.ingredients.map fun (i : IngredientRow) =>
          if i.id == ingredientId then
            { i with
              name := (match p.name with | some (.str s) => jsTrim s | _ => i.name)
              unit := (match p.unit with | some (.str u) => u | _ => i.unit) }
          else i
        .ok (200, { db with ingredients := ingredients' })

/-- `GET /api/ingredients/:id`. -/
def getIngredient (db : Db) (ingredientId : ℕ) : Except Failure (ℕ × IngredientRow) :=
  match db.ingredients.find? (fun i => i.id == ingredientId) with
  | none => .error .notFound
  | some i => .ok (200, i)

/-- `DELETE /api/ingredients/:id` (lines 189–221): 404 when absent, 409
when `SELECT COUNT(*) FROM recipe_ingredients WHERE ingredient_id = ?` is
positive (the conflict is raised before any mutation), otherwise delete
and return 204. -/
def deleteIngredient (db : Db) (ingredientId : ℕ) : Except Failure (ℕ × Db) :=
  match db.ingredients.find? (fun i => i.id == ingredientId) with
  | none => .error .notFound
  | some _ =>
    let usageCount := db.recipe_ingredients.countP (fun l => l.ingredient_id == ingredientId)
    if 0 < usageCount then .error .conflict
    else .ok (204, { db with
      ingredients := db.ingredients.filter (fun i => i.id != ingredientId) })

/-- A small populated store used to instantiate the theorems. -/
def sampleDb : Db :=
  { recipes := [⟨1, "Classic Pancakes", none, "Mix and cook", 10, 15, 4⟩]
    ingredients := [⟨1, "Flour", "g"⟩, ⟨2, "Sugar", "g"⟩]
    recipe_ingredients := [⟨1, 1, 200⟩]
    nextRecipeId := 2
    nextIngredientId := 3 }

/-- A recipe payload whose ingredient entry carries a negative numeric
quantity. -/
def negQuantityPayload : RecipePayload :=
  { name := some (.str "Soup"), instructions := some (.str "Boil"),
    ingredients := some [⟨1, some (.num (-5))⟩] }

/-- The store produced by POSTing `negQuantityPayload` to `sampleDb`. -/
def negQuantityDb : Db :=
  { recipes := sampleDb.recipes ++ [⟨2, "Soup", none, "Boil", 0, 0, 1⟩]
    ingredients := sampleDb.ingredients
    recipe_ingredients := sampleDb.recipe_ingredients ++ [⟨2, 1, -5⟩]
    nextRecipeId := 3
    nextIngredientId := 3 }

/-- A recipe payload with fractional `servings = 5/2` (i.e. 2.5). -/
def halfServingsPayload : RecipePayload :=
  { name := some (.str "Cake"), instructions := some (.str "Bake"),
    servings := some (.num (mkRat 5 2)) }

theorem String.mk_data_eq (s : String) : String.mk s.data = s := rfl

/-! ### Helper lemmas for the display formatting -/

theorem digitChar_beq_zero (k : ℕ) (hk : k < 10) :
    (digitChar k == '0') = decide (k = 0) := by
  interval_cases k <;> rfl

theorem digitChar_ne_dot (k : ℕ) (hk : k < 10) : digitChar k ≠ '.' := by
  interval_cases k <;> decide

/-- Stripping `".00"` from a whole-number rendering leaves the integer
part. -/
theorem strip_whole (d : List Char) :
    String.mk (dropTrailingDot (dropTrailingZeros (d ++ ['.', '0', '0']))) = String.mk d := by
  have h1 : dropTrailingZeros (d ++ ['.', '0', '0']) = d ++ ['.'] := by
    simp [dropTrailingZeros, List.reverse_append, List.dropWhile_cons]
  rw [h1]
  simp [dropTrailingDot, List.reverse_append]

/-- On a two-decimal rendering whose fraction digits are not both zero,
the source regex and the spec's strip-zeros-then-strip-dot agree. -/
theorem strip_frac (s : String) (d : List Char) (a b : ℕ) (ha : a < 10) (hb : b < 10)
    (hab : a ≠ 0 ∨ b ≠ 0) (hs : s.data = d ++ ['.', digitChar a, digitChar b]) :
    stripTrailZeros s = String.mk (dropTrailingDot (dropTrailingZeros s.data)) := by
  by_cases hb0 : b = 0
  · -- trailing digit is '0': strip exactly one zero, keep the tens digit
    have ha0 : a ≠ 0 := by tauto
    have hba : (digitChar a == '0') = false := by
      rw [digitChar_beq_zero a ha]; simp [ha0]
    have hrev : s.data.reverse = '0' :: digitChar a :: '.' :: d.reverse := by
      subst hb0; simp [hs, List.reverse_append, digitChar]
    have hdrop : s.data.reverse.dropWhile (· == '0') = digitChar a :: '.' :: d.reverse := by
      simp [hrev, List.dropWhile_cons, hba]
    have htake : (s.data.reverse.takeWhile (· == '0')).isEmpty = false := by
      simp [hrev, List.takeWhile_cons]
    rw [stripTrailZeros]
    rw [if_neg (by simp [htake])]
    rw [dropTrailingZeros, hdrop]
    have hnd : ¬ (digitChar a :: '.' :: d.reverse).head? = some '.' := by
      simp [digitChar_ne_dot a ha]
    rw [if_neg (by simpa using hnd)]
    rw [dropTrailingDot]
    rw [if_neg (by simpa using hnd)]
  · -- trailing digit is nonzero: both sides leave the string unchanged
    have hbb : (digitChar b == '0') = false := by
      rw [digitChar_beq_zero b hb]; simp [hb0]
    have hrev : s.data.reverse = digitChar b :: digitChar a :: '.' :: d.reverse := by
      simp [hs, List.reverse_append]
    have htake : (s.data.reverse.takeWhile (· == '0')).isEmpty = true := by
      simp [hrev, List.takeWhile_cons, hbb]
    rw [stripTrailZeros, if_pos (by simpa using htake)]
    have hdz : dropTrailingZeros s.data = s.data := by
      rw [dropTrailingZeros, hrev, List.dropWhile_cons]
      simp only [hbb, Bool.false_eq_true, if_false]
      rw [← hrev, List.reverse_reverse]
    rw [hdz, dropTrailingDot]
    rw [if_neg (by simp [hrev, digitChar_ne_dot b hb])]

/-- The source `formatQuantity` agrees with the spec-side rendering on
every nonnegative value. -/
theorem formatQuantity_eq_specDisplay (x : ℚ) (hx : 0 ≤ x) :
    formatQuantity x = specDisplay x := by
  have hn : 0 ≤ round2 x := jsRound_nonneg _ (by rw [qmul_eq_mul]; positivity)
  have hm0 : 0 ≤ round2 x % 100 := Int.emod_nonneg _ (by norm_num)
  have hm1 : round2 x % 100 < 100 := Int.emod_lt_of_pos _ (by norm_num)
  by_cases h : round2 x % 100 = 0
  · have h10 : (round2 x % 100).toNat / 10 = 0 := by omega
    have h01 : (round2 x % 100).toNat % 10 = 0 := by omega
    have hdata : (toFixed2 (round2 x)).data
        = (toString (round2 x / 100)).data ++ ['.', '0', '0'] := by
      simp only [toFixed2, h10, h01, String.data_append, List.append_assoc]
      rfl
    rw [formatQuantity, if_pos h, specDisplay, hdata, strip_whole]
  · rw [formatQuantity, if_neg h, specDisplay]
    exact strip_frac _ (toString (round2 x / 100)).data
      ((round2 x % 100).toNat / 10) ((round2 x % 100).toNat % 10)
      (by omega) (by omega) (by omega)
      (by simp only [toFixed2, String.data_append, List.append_assoc]; rfl)

/-! ### Claim C1 -/

/-- C1: for every ingredient quantity `q ≥ 0` and positive
`originalServings s₀`, `currentServings s`, the PortionCalculator displays
the adjusted quantity `q × (s / s₀)` rounded to 2 decimal places with
trailing zeros and a trailing decimal point stripped; in particular
`q=200, s₀=4, s=8` displays `"400"`, `q=2, s₀=4, s=5` displays `"2.5"`,
and `q=3, s₀=4, s=2` displays `"1.5"`. -/
theorem portion_display_rounds_and_strips (q : ℚ) (s₀ s : ℕ)
    (hq : 0 ≤ q) (hs₀ : 0 < s₀) (hs : 0 < s) :
    formatQuantity (adjustedQuantity q (servingsRatio s s₀))
        = specDisplay (q * ((s : ℚ) / (s₀ : ℚ)))
      ∧ formatQuantity (adjustedQuantity 200 (servingsRatio 8 4)) = "400"
      ∧ formatQuantity (adjustedQuantity 2 (servingsRatio 5 4)) = "2.5"
      ∧ formatQuantity (adjustedQuantity 3 (servingsRatio 2 4)) = "1.5" := by
  refine ⟨?_, by decide, by decide, by decide⟩
  have harg : adjustedQuantity q (servingsRatio s s₀) = q * ((s : ℚ) / (s₀ : ℚ)) := by
    rw [adjustedQuantity, qmul_eq_mul, servingsRatio_eq_div]
  rw [harg]
  exact formatQuantity_eq_specDisplay _
    (mul_nonneg hq (div_nonneg (Nat.cast_nonneg s) (Nat.cast_nonneg s₀)))

theorem portion_display_witness :
    formatQuantity (adjustedQuantity 2 (servingsRatio 5 4)) = "2.5" :=
  (portion_display_rounds_and_strips 2 4 5 (by norm_num) (by norm_num) (by norm_num)).2.2.1

/-! ### Claim C4 -/

/-- C4: scaling is linear and reversible — scaling `q ≥ 0` by `s / s₀` and
the result by `s₀ / s` reproduces `q` exactly (so in particular within
rounding tolerance). -/
theorem scaling_reversible (q : ℚ) (s₀ s : ℕ) (hq : 0 ≤ q) (hs₀ : 0 < s₀) (hs : 0 < s) :
    adjustedQuantity (adjustedQuantity q (servingsRatio s s₀)) (servingsRatio s₀ s) = q := by
  rw [adjustedQuantity, adjustedQuantity, qmul_eq_mul, qmul_eq_mul,
    servingsRatio_eq_div, servingsRatio_eq_div]
  have h₀ : ((s₀ : ℚ)) ≠ 0 := Nat.cast_ne_zero.mpr hs₀.ne'
  have h₁ : ((s : ℚ)) ≠ 0 := Nat.cast_ne_zero.mpr hs.ne'
  field_simp

theorem scaling_reversible_witness :
    adjustedQuantity (adjustedQuantity 3 (servingsRatio 2 4)) (servingsRatio 4 2) = 3 :=
  scaling_reversible 3 4 2 (by norm_num) (by norm_num) (by norm_num)

/-! ### Claim C5 -/

theorem applyOp_ge_one (orig cur : ℤ) (h : 1 ≤ orig) (hc : 1 ≤ cur) (op : PortionOp) :
    1 ≤ applyOp orig cur op := by
  cases op with
  | decrease => simp [applyOp]
  | increase => simp only [applyOp]; omega
  | reset => simpa [applyOp]
  | input v =>
    cases v with
    | none => simpa [applyOp]
    | some w =>
      simp only [applyOp]
      split <;> omega

/-- C5: `currentServings` never falls below 1 under any sequence of
decrease/increase/reset/direct-input operations; a decrement at 1 leaves
the value 1; and direct input that is non-numeric (`parseInt` gave `NaN`)
or parses below 1 (zero or negative) is rejected, retaining the previous
value unchanged. -/
theorem servings_floor_invariant (orig : ℤ) (ops : List PortionOp) (h : 1 ≤ orig) :
    1 ≤ runOps orig ops
      ∧ applyOp orig 1 .decrease = 1
      ∧ (∀ cur v, v < 1 → applyOp orig cur (.input (some v)) = cur)
      ∧ (∀ cur, applyOp orig cur (.input none) = cur) := by
  refine ⟨?_, by simp [applyOp], ?_, fun cur => rfl⟩
  · have haux : ∀ (l : List PortionOp) (cur : ℤ), 1 ≤ cur →
        1 ≤ l.foldl (applyOp orig) cur := by
      intro l
      induction l with
      | nil => intro cur hc; simpa
      | cons op rest ih =>
        intro cur hc
        exact ih _ (applyOp_ge_one orig cur h hc op)
    exact haux ops orig h
  · intro cur v hv
    simp only [applyOp]
    rw [if_neg (by omega)]

theorem servings_floor_witness :
    1 ≤ runOps 4 [PortionOp.decrease, .decrease, .decrease, .decrease,
      .input (some 0), .input none, .increase, .decrease, .decrease] :=
  (servings_floor_invariant 4 _ (by norm_num)).1

/-! ### Helper lemmas for the retry loop -/

theorem makeRequest_cons_ok (n : ℕ) (o : Outcome) (rest : List Outcome) (st : ℕ)
    (h : classifyOutcome o = .ok st) :
    makeRequest n (o :: rest) = (1, .ok st) := by
  rw [makeRequest, h]

theorem makeRequest_cons_terminal (n : ℕ) (o : Outcome) (rest : List Outcome)
    (e : ClientError) (h : classifyOutcome o = .error e) (ht : isTerminal e = true) :
    makeRequest n (o :: rest) = (1, .error e) := by
  rw [makeRequest, h]
  simp [ht]

theorem makeRequest_cons_retry (n : ℕ) (o : Outcome) (rest : List Outcome)
    (hn : n ≠ 0) (h : retryableFail o) :
    makeRequest n (o :: rest)
      = ((makeRequest (n - 1) rest).1 + 1, (makeRequest (n - 1) rest).2) := by
  obtain ⟨e, hc, ht⟩ := h
  rw [makeRequest, hc]
  simp [ht, hn]

theorem makeRequest_zero_exhausted (o : Outcome) (rest : List Outcome)
    (e : ClientError) (h : classifyOutcome o = .error e) (ht : isTerminal e = false) :
    makeRequest 0 (o :: rest) = (1, .error (finalizeErr e)) := by
  rw [makeRequest, h]
  simp [ht]

/-! ### Claim C2 -/

/-- C2 (divergence witness): with the default budget and a success
available on the second call, a 429 response is NOT retried — the client
makes exactly one underlying call and raises the `ApiError` with status
429.  The catch-block guard `statusCode >= 400 && statusCode < 500`
classifies 429 as terminal, contrary to the claim, the spec, and the
code's own comments ("Don't retry client errors (4xx) except for 429"). -/
theorem rate_limit_429_not_retried :
    makeRequest DEFAULT_RETRIES [.resp 429, .resp 200]
        = (1, .error (.apiError 429))
      ∧ isTerminal (.apiError 429) = true := by
  constructor <;> rfl

/-! ### Claim C3 -/

/-- C3: with the default budget of 2 additional attempts: two retryable
failures then a success make exactly 3 underlying calls and return the
success payload; three transport failures (whose messages contain
"fetch"/"network", as real `fetch` rejections do) make 3 calls and raise
`NetworkError`; a 400 response makes exactly 1 call; a single 500 then a
success makes 2 calls; and on exhaustion the raised error is the
finalization of the last classified error, which keeps a structured
`ApiError` or `TimeoutError` as is (only a generic error is downgraded to
`NetworkError`). -/
theorem retry_behaviour_default_budget :
    (∀ o₁ o₂ st rest, retryableFail o₁ → retryableFail o₂ → 200 ≤ st → st < 300 →
      makeRequest DEFAULT_RETRIES (o₁ :: o₂ :: .resp st :: rest) = (3, .ok st))
    ∧ (∀ m₁ m₂ m₃ rest,
      (strContains m₃ "fetch" || strContains m₃ "network") = true →
      makeRequest DEFAULT_RETRIES (.transport m₁ :: .transport m₂ :: .transport m₃ :: rest)
        = (3, .error .networkError))
    ∧ (∀ rest, makeRequest DEFAULT_RETRIES (.resp 400 :: rest) = (1, .error (.apiError 400)))
    ∧ (∀ st rest, 200 ≤ st → st < 300 →
      makeRequest DEFAULT_RETRIES (.resp 500 :: .resp st :: rest) = (2, .ok st))
    ∧ (∀ o₁ o₂ o₃ e₃ rest, retryableFail o₁ → retryableFail o₂ →
      classifyOutcome o₃ = .error e₃ → isTerminal e₃ = false →
      makeRequest DEFAULT_RETRIES (o₁ :: o₂ :: o₃ :: rest) = (3, .error (finalizeErr e₃)))
    ∧ (∀ st, finalizeErr (.apiError st) = .apiError st)
    ∧ finalizeErr .timeoutError = .timeoutError := by
  have hok : ∀ st, 200 ≤ st → st < 300 → classifyOutcome (.resp st) = .ok st := by
    intro st h1 h2
    simp [classifyOutcome, h1, h2]
  have h500 : retryableFail (.resp 500) := ⟨.apiError 500, rfl, rfl⟩
  have htrans : ∀ m, retryableFail (.transport m) := fun m => ⟨.genericError m, rfl, rfl⟩
  refine ⟨?_, ?_, ?_, ?_, ?_, fun st => rfl, rfl⟩
  · intro o₁ o₂ st rest h₁ h₂ hs1 hs2
    simp only [DEFAULT_RETRIES]
    rw [makeRequest_cons_retry 2 o₁ _ (by norm_num) h₁,
      makeRequest_cons_retry 1 o₂ _ (by norm_num) h₂,
      makeRequest_cons_ok 0 _ _ st (hok st hs1 hs2)]
  · intro m₁ m₂ m₃ rest hm
    simp only [DEFAULT_RETRIES]
    rw [makeRequest_cons_retry 2 _ _ (by norm_num) (htrans m₁),
      makeRequest_cons_retry 1 _ _ (by norm_num) (htrans m₂),
      makeRequest_zero_exhausted (.transport m₃) rest (.genericError m₃) rfl rfl]
    simp [finalizeErr, hm]
  · intro rest
    exact makeRequest_cons_terminal _ _ _ (.apiError 400) rfl rfl
  · intro st rest hs1 hs2
    simp only [DEFAULT_RETRIES]
    rw [makeRequest_cons_retry 2 _ _ (by norm_num) h500,
      makeRequest_cons_ok 1 _ _ st (hok st hs1 hs2)]
  · intro o₁ o₂ o₃ e₃ rest h₁ h₂ hc₃ ht₃
    simp only [DEFAULT_RETRIES]
    rw [makeRequest_cons_retry 2 o₁ _ (by norm_num) h₁,
      makeRequest_cons_retry 1 o₂ _ (by norm_num) h₂,
      makeRequest_zero_exhausted o₃ rest e₃ hc₃ ht₃]

theorem retry_behaviour_witness :
    makeRequest DEFAULT_RETRIES [.resp 500, .timeout, .resp 201] = (3, .ok 201)
      ∧ makeRequest DEFAULT_RETRIES [.transport "Failed to fetch",
          .transport "Failed to fetch", .transport "Failed to fetch"]
        = (3, .error .networkError)
      ∧ makeRequest DEFAULT_RETRIES [.resp 400] = (1, .error (.apiError 400))
      ∧ makeRequest DEFAULT_RETRIES [.resp 500, .resp 200] = (2, .ok 200)
      ∧ makeRequest DEFAULT_RETRIES [.resp 503, .timeout, .timeout]
        = (3, .error (finalizeErr .timeoutError)) :=
  ⟨retry_behaviour_default_budget.1 (.resp 500) .timeout 201 []
      ⟨.apiError 500, rfl, rfl⟩ ⟨.timeoutError, rfl, rfl⟩ (by norm_num) (by norm_num),
    retry_behaviour_default_budget.2.1 _ _ _ [] (by decide),
    retry_behaviour_default_budget.2.2.1 [],
    retry_behaviour_default_budget.2.2.2.1 200 [] (by norm_num) (by norm_num),
    retry_behaviour_default_budget.2.2.2.2.1 (.resp 503) .timeout .timeout
      .timeoutError [] ⟨.apiError 503, rfl, rfl⟩ ⟨.timeoutError, rfl, rfl⟩ rfl rfl⟩

/-! ### Claim C8 -/

/-- C8: for every existing recipe id, DELETE returns 204 and cascades:
a subsequent GET of that id is a 404, and no `recipe_ingredients` row
referencing the id survives in the store. -/
theorem delete_recipe_cascades (db : Db) (recipeId : ℕ)
    (h : ∃ r ∈ db.recipes, r.id = recipeId) :
    deleteRecipe db recipeId = .ok (204, cascadeDeleteRecipe db recipeId)
      ∧ getRecipe (cascadeDeleteRecipe db recipeId) recipeId = .error .notFound
      ∧ ∀ l ∈ (cascadeDeleteRecipe db recipeId).recipe_ingredients,
          l.recipe_id ≠ recipeId := by
  obtain ⟨r, hr, hid⟩ := h
  have hfind : (db.recipes.find? (fun r => r.id == recipeId)).isSome :=
    List.find?_isSome.mpr ⟨r, hr, by simp [hid]⟩
  refine ⟨?_, ?_, ?_⟩
  · rw [deleteRecipe]
    cases hf : db.recipes.find? (fun r => r.id == recipeId) with
    | none => rw [hf] at hfind; simp at hfind
    | some _ => rfl
  · rw [getRecipe]
    have hnone : ((cascadeDeleteRecipe db recipeId).recipes.find?
        (fun r => r.id == recipeId)) = none := by
      apply List.find?_eq_none.mpr
      intro x hx
      rw [cascadeDeleteRecipe] at hx
      simp only [List.mem_filter] at hx
      simpa using hx.2
    rw [hnone]
  · intro l hl
    rw [cascadeDeleteRecipe] at hl
    simp only [List.mem_filter] at hl
    simpa using hl.2

theorem delete_recipe_cascades_witness :
    deleteRecipe sampleDb 1 = .ok (204, cascadeDeleteRecipe sampleDb 1)
      ∧ getRecipe (cascadeDeleteRecipe sampleDb 1) 1 = .error .notFound
      ∧ ∀ l ∈ (cascadeDeleteRecipe sampleDb 1).recipe_ingredients, l.recipe_id ≠ 1 :=
  delete_recipe_cascades sampleDb 1
    ⟨⟨1, "Classic Pancakes", none, "Mix and cook", 10, 15, 4⟩, by decide, rfl⟩

/-! ### Claim C9 -/

/-- C9: deleting an ingredient that some recipe-ingredient link references
is a 409 conflict raised before any mutation (the result carries no store,
so the ingredient stays; it is not a silent no-op because the outcome is
an error, not a success); deleting an existing unreferenced ingredient
returns 204 and a subsequent GET of that id is a 404. -/
theorem ingredient_delete_guard (db : Db) (ingredientId : ℕ) :
    ((∃ i ∈ db.ingredients, i.id = ingredientId) →
      (∃ l ∈ db.recipe_ingredients, l.ingredient_id = ingredientId) →
      deleteIngredient db ingredientId = .error .conflict
        ∧ Failure.conflict.status = 409)
    ∧ ((∃ i ∈ db.ingredients, i.id = ingredientId) →
      (∀ l ∈ db.recipe_ingredients, l.ingredient_id ≠ ingredientId) →
      deleteIngredient db ingredientId
          = .ok (204, { db with
              ingredients := db.ingredients.filter (fun i => i.id != ingredientId) })
        ∧ getIngredient
            { db with ingredients := db.ingredients.filter (fun i => i.id != ingredientId) }
            ingredientId = .error .notFound) := by
  constructor
  · rintro ⟨i, hi, hiid⟩ ⟨l, hl, hlid⟩
    have hfind : (db.ingredients.find? (fun j => j.id == ingredientId)).isSome :=
      List.find?_isSome.mpr ⟨i, hi, by simp [hiid]⟩
    have hcount : 0 < db.recipe_ingredients.countP (fun j => j.ingredient_id == ingredientId) :=
      List.countP_pos_iff.mpr ⟨l, hl, by simp [hlid]⟩
    refine ⟨?_, rfl⟩
    rw [deleteIngredient]
    cases hf : db.ingredients.find? (fun j => j.id == ingredientId) with
    | none => rw [hf] at hfind; simp at hfind
    | some _ => simp only []; rw [if_pos hcount]
  · rintro ⟨i, hi, hiid⟩ hnone
    have hfind : (db.ingredients.find? (fun j => j.id == ingredientId)).isSome :=
      List.find?_isSome.mpr ⟨i, hi, by simp [hiid]⟩
    have hcount : db.recipe_ingredients.countP (fun j => j.ingredient_id == ingredientId) = 0 :=
      List.countP_eq_zero.mpr (fun l hl => by simpa using hnone l hl)
    constructor
    · rw [deleteIngredient]
      cases hf : db.ingredients.find? (fun j => j.id == ingredientId) with
      | none => rw [hf] at hfind; simp at hfind
      | some _ => simp only []; rw [if_neg (by omega)]
    · rw [getIngredient]
      have hn : (List.find? (fun j => j.id == ingredientId)
          (db.ingredients.filter (fun i => i.id != ingredientId))) = none := by
        apply List.find?_eq_none.mpr
        intro x hx
        simp only [List.mem_filter] at hx
        simpa using hx.2
      simp only []
      rw [hn]

theorem ingredient_delete_guard_witness :
    (deleteIngredient sampleDb 1 = .error .conflict ∧ Failure.conflict.status = 409)
      ∧ (deleteIngredient sampleDb 2
          = .ok (204, { sampleDb with
              ingredients := sampleDb.ingredients.filter (fun i => i.id != 2) })
        ∧ getIngredient
            { sampleDb with ingredients := sampleDb.ingredients.filter (fun i => i.id != 2) }
            2 = .error .notFound) :=
  ⟨(ingredient_delete_guard sampleDb 1).1
      ⟨⟨1, "Flour", "g"⟩, by decide, rfl⟩ ⟨⟨1, 1, 200⟩, by decide, rfl⟩,
    (ingredient_delete_guard sampleDb 2).2
      ⟨⟨2, "Sugar", "g"⟩, by decide, rfl⟩ (by decide)⟩

/-! ### Claim C10 -/

theorem jsToLower_length (s : String) : (jsToLower s).length = s.length := by
  rw [jsToLower]
  show (s.data.map Char.toLower).length = s.length
  rw [List.length_map]
  rfl

theorem jsToLower_eq_empty (s : String) : jsToLower s = "" ↔ s = "" := by
  constructor
  · intro h
    have hdata : (jsToLower s).data = [] := by rw [h]
    simp only [jsToLower] at hdata
    have : s.data = [] := by
      simpa using hdata
    calc s = String.mk s.data := rfl
    _ = String.mk [] := by rw [this]
    _ = "" := rfl
  · intro h; rw [h]; rfl

/-- C10: ingredient-name uniqueness is enforced case-insensitively at
write time.  POST with a trimmed name that case-insensitively matches a
stored ingredient's name returns 409 CONFLICT (the stored name being a
previously validated one: nonempty and at most 100 characters, which the
matching new name then also satisfies, so validation passes and the
duplicate check fires).  PUT likewise conflicts when the new trimmed name
case-insensitively matches an ingredient other than the record being
updated; the hypothesis `hinv` is the store's name-uniqueness invariant,
which makes the route's own-name guard pass. -/
theorem ingredient_name_ci_unique :
    (∀ (db : Db) (nm : String) (u : Option JsVal) (other : IngredientRow),
      other ∈ db.ingredients →
      jsToLower other.name = jsToLower (jsTrim nm) →
      other.name ≠ "" → other.name.length ≤ 100 →
      unitError u = false →
      postIngredient db { name := some (.str nm), unit := u } = .error .conflict)
    ∧ (∀ (db : Db) (ingredientId : ℕ) (nm : String) (u : Option JsVal)
        (target other : IngredientRow),
      (∀ i ∈ db.ingredients, ∀ j ∈ db.ingredients,
        jsToLower i.name = jsToLower j.name → i.id = j.id) →
      db.ingredients.find? (fun i => i.id == ingredientId) = some target →
      other ∈ db.ingredients → other.id ≠ ingredientId →
      jsToLower other.name = jsToLower (jsTrim nm) →
      other.name ≠ "" → other.name.length ≤ 100 →
      unitError u = false →
      putIngredient db ingredientId { name := some (.str nm), unit := u }
        = .error .conflict) := by
  have keyfacts : ∀ (nm : String) (other : IngredientRow),
      jsToLower other.name = jsToLower (jsTrim nm) →
      other.name ≠ "" → other.name.length ≤ 100 →
      (jsTrim nm == "") = false ∧ ¬ 100 < (jsTrim nm).length := by
    intro nm other hmatch hne hlen
    have hlen' : (jsTrim nm).length = other.name.length := by
      rw [← jsToLower_length (jsTrim nm), ← hmatch, jsToLower_length]
    constructor
    · simp only [beq_eq_false_iff_ne, ne_eq]
      intro hempty
      apply hne
      rw [← jsToLower_eq_empty]
      rw [hmatch, hempty]
      rfl
    · omega
  constructor
  · intro db nm u other hmem hmatch hne hlen hu
    obtain ⟨hempty, hlong⟩ := keyfacts nm other hmatch hne hlen
    have hval : validateIngredientCreate { name := some (.str nm), unit := u } = [] := by
      simp [validateIngredientCreate, ingredientNameErrors, hempty, hlong, hu]
    have hfind : (db.ingredients.find?
        fun i => jsToLower i.name == jsToLower (jsTrim nm)).isSome :=
      List.find?_isSome.mpr ⟨other, hmem, by simp [hmatch]⟩
    simp only [postIngredient, hval]
    rw [if_neg (by simp)]
    rw [if_pos hfind]
  · intro db ingredientId nm u target other hinv hfound hmem hoid hmatch hne hlen hu
    obtain ⟨hempty, hlong⟩ := keyfacts nm other hmatch hne hlen
    have htmem : target ∈ db.ingredients := List.mem_of_find?_eq_some hfound
    have htid : target.id = ingredientId := by
      have := List.find?_some hfound
      simpa using this
    have hownne : jsToLower (jsTrim nm) ≠ jsToLower target.name := by
      intro heq
      apply hoid
      rw [← htid]
      exact hinv other hmem target htmem (hmatch.trans heq)
    have hval : validateIngredientUpdate { name := some (.str nm), unit := u } = [] := by
      simp [validateIngredientUpdate, ingredientNameUpdateErrors, hempty, hlong, hu]
    have hfind : (db.ingredients.find? fun (i : IngredientRow) =>
        jsToLower i.name == jsToLower (jsTrim nm) && i.id != ingredientId).isSome :=
      List.find?_isSome.mpr ⟨other, hmem, by simp [hmatch, hoid]⟩
    simp only [putIngredient]
    rw [hfound]
    simp only [hval]
    rw [if_neg (by simp)]
    rw [if_pos (by rw [Bool.and_eq_true, bne_iff_ne]; exact ⟨hownne, hfind⟩)]

theorem ingredient_name_ci_unique_witness :
    postIngredient sampleDb { name := some (.str "flour"), unit := none }
        = .error .conflict
      ∧ putIngredient sampleDb 2 { name := some (.str "FLOUR"), unit := none }
        = .error .conflict :=
  ⟨ingredient_name_ci_unique.1 sampleDb "flour" none ⟨1, "Flour", "g"⟩
      (by decide) (by decide) (by decide) (by decide) rfl,
    ingredient_name_ci_unique.2 sampleDb 2 "FLOUR" none ⟨2, "Sugar", "g"⟩ ⟨1, "Flour", "g"⟩
      (by decide) (by decide) (by decide) (by decide) (by decide) (by decide)
      (by decide) rfl⟩

/-! ### Claim C6 -/

theorem entryLink_spec (rid : ℕ) (e : IngredientEntry) (l : RecipeIngredientRow)
    (h : entryLink rid e = some l) :
    e.ingredient_id ≠ 0 ∧ l.recipe_id = rid ∧ l.ingredient_id = e.ingredient_id
      ∧ e.quantity = some (.num l.quantity) := by
  rcases e with ⟨eid, q⟩
  rcases q with _ | v
  · exact Option.noConfusion h
  · rcases v with qq | s
    · rw [entryLink] at h
      simp only [] at h
      split at h
      · injection h with h'
        subst h'
        refine ⟨by assumption, rfl, rfl, rfl⟩
      · exact Option.noConfusion h
    · exact Option.noConfusion h

/-- C6 counterexample: POST persists a recipe-ingredient link with
quantity −5: the insert guard checks only that the quantity is a number,
never its sign, and the schema has no CHECK constraint. -/
theorem negative_quantity_persisted :
    postRecipe sampleDb negQuantityPayload = .ok (201, negQuantityDb, 2)
      ∧ (⟨2, 1, -5⟩ : RecipeIngredientRow) ∈ negQuantityDb.recipe_ingredients
      ∧ ((-5 : ℚ) < 0) :=
  ⟨by rfl, by decide, by decide⟩

/-- C6 amended: every link row present after POST or PUT either was
already stored or stems from a payload entry with a truthy
`ingredient_id` and a numeric `quantity`, and carries exactly that
entry's quantity — with no constraint on its sign (negative quantities
are persisted, see the counterexample). -/
theorem link_rows_carry_entry_quantities (db : Db) (p : RecipePayload) :
    (∀ st db' rid, postRecipe db p = .ok (st, db', rid) →
      ∀ l ∈ db'.recipe_ingredients,
        l ∈ db.recipe_ingredients ∨
          ∃ e ∈ p.ingredients.getD [], e.ingredient_id ≠ 0 ∧
            l.ingredient_id = e.ingredient_id ∧ e.quantity = some (.num l.quantity))
    ∧ (∀ recipeId st db', putRecipe db recipeId p = .ok (st, db') →
      ∀ l ∈ db'.recipe_ingredients,
        l ∈ db.recipe_ingredients ∨
          ∃ e ∈ p.ingredients.getD [], e.ingredient_id ≠ 0 ∧
            l.ingredient_id = e.ingredient_id ∧ e.quantity = some (.num l.quantity)) := by
  constructor
  · intro st db' rid h l hl
    simp only [postRecipe] at h
    split at h
    · exact Except.noConfusion h
    · split at h
      · simp only [Except.ok.injEq, Prod.mk.injEq] at h
        obtain ⟨hst, hdb, hrid⟩ := h
        subst hdb
        rcases List.mem_append.mp hl with hold | hnew
        · exact Or.inl hold
        · obtain ⟨e, he, heq⟩ := List.mem_filterMap.mp hnew
          obtain ⟨hne0, _, hiid, hq⟩ := entryLink_spec _ e l heq
          exact Or.inr ⟨e, he, hne0, hiid, hq⟩
      · exact Except.noConfusion h
  · intro recipeId st db' h l hl
    rcases hpi : p.ingredients with _ | entries
    · simp only [putRecipe, hpi] at h
      split at h
      · exact Except.noConfusion h
      · split at h
        · exact Except.noConfusion h
        · simp only [Except.ok.injEq, Prod.mk.injEq] at h
          obtain ⟨hst, hdb⟩ := h
          subst hdb
          exact Or.inl hl
    · simp only [putRecipe, hpi] at h
      split at h
      · exact Except.noConfusion h
      · split at h
        · exact Except.noConfusion h
        · simp only [Except.ok.injEq, Prod.mk.injEq] at h
          obtain ⟨hst, hdb⟩ := h
          subst hdb
          rcases List.mem_append.mp hl with hold | hnew
          · exact Or.inl (List.mem_filter.mp hold).1
          · obtain ⟨e, he, heq⟩ := List.mem_filterMap.mp hnew
            obtain ⟨hne0, _, hiid, hq⟩ := entryLink_spec recipeId e l heq
            refine Or.inr ⟨e, ?_, hne0, hiid, hq⟩
            simpa using he

theorem link_rows_witness :
    (⟨2, 1, -5⟩ : RecipeIngredientRow) ∈ sampleDb.recipe_ingredients ∨
      ∃ e ∈ negQuantityPayload.ingredients.getD [], e.ingredient_id ≠ 0 ∧
        (⟨2, 1, -5⟩ : RecipeIngredientRow).ingredient_id = e.ingredient_id ∧
        e.quantity = some (.num (⟨2, 1, -5⟩ : RecipeIngredientRow).quantity) :=
  (link_rows_carry_entry_quantities sampleDb negQuantityPayload).1 201 negQuantityDb 2
    (by rfl) ⟨2, 1, -5⟩ (by decide)

/-! ### Claim C7 -/

/-- C7 counterexample: a payload with `servings = 5/2` (= 2.5, a
non-integer ≥ 1) is ACCEPTED with 201 — not rejected with
VALIDATION_ERROR — because both routes check only
`typeof servings === 'number' && servings >= 1`. -/
theorem fractional_servings_accepted :
    postRecipe sampleDb halfServingsPayload
        = .ok (201, { sampleDb with
            recipes := sampleDb.recipes ++ [⟨2, "Cake", none, "Bake", 0, 0, mkRat 5 2⟩]
            recipe_ingredients := sampleDb.recipe_ingredients ++ []
            nextRecipeId := 3 }, 2)
      ∧ (mkRat 5 2 : ℚ).den = 2
      ∧ (1 : ℚ) ≤ mkRat 5 2 :=
  ⟨by rfl, by decide, by decide⟩

/-- C7 amended: a present `servings` passes validation iff it is a
NUMBER `≥ 1` (integrality is not checked; see the counterexample); when
it fails, both POST and PUT (on an existing id) are rejected with the
VALIDATION_ERROR failure, which maps to HTTP 400, and the error list
names the `servings` field; when it passes, no `servings` field error is
produced. -/
theorem servings_number_check (db : Db) (p : RecipePayload) (v : JsVal)
    (hp : p.servings = some v) :
    (servingsError p.servings = false ↔ ∃ q : ℚ, v = .num q ∧ 1 ≤ q)
    ∧ (servingsError p.servings = true →
        (⟨"servings", "Servings must be at least 1"⟩ : FieldError) ∈ validateRecipeCreate p
          ∧ (⟨"servings", "Servings must be at least 1"⟩ : FieldError) ∈ validateRecipeUpdate p
          ∧ postRecipe db p = .error (.validation (validateRecipeCreate p))
          ∧ (∀ recipeId, (db.recipes.find? (fun r => r.id == recipeId)).isSome →
              putRecipe db recipeId p = .error (.validation (validateRecipeUpdate p)))
          ∧ (Failure.validation (validateRecipeCreate p)).status = 400)
    ∧ (servingsError p.servings = false →
        ((validateRecipeCreate p).all fun fe => fe.field != "servings") = true
          ∧ ((validateRecipeUpdate p).all fun fe => fe.field != "servings") = true) := by
  refine ⟨?_, ?_, ?_⟩
  · rw [hp]
    rcases v with q | s
    · simp [servingsError, not_lt]
    · simp [servingsError]
  · intro h
    have hmemC : (⟨"servings", "Servings must be at least 1"⟩ : FieldError)
        ∈ validateRecipeCreate p := by
      simp [validateRecipeCreate, h]
    have hmemU : (⟨"servings", "Servings must be at least 1"⟩ : FieldError)
        ∈ validateRecipeUpdate p := by
      simp [validateRecipeUpdate, h]
    refine ⟨hmemC, hmemU, ?_, ?_, rfl⟩
    · have hne : validateRecipeCreate p ≠ [] := List.ne_nil_of_mem hmemC
      simp only [postRecipe]
      rw [if_pos hne]
    · intro recipeId hfind
      have hne : validateRecipeUpdate p ≠ [] := List.ne_nil_of_mem hmemU
      simp only [putRecipe]
      cases hf : db.recipes.find? (fun r => r.id == recipeId) with
      | none => rw [hf] at hfind; simp at hfind
      | some r =>
        rw [if_neg (by simp)]
        rw [if_pos hne]
  · intro h
    constructor
    · simp only [validateRecipeCreate, h]
      split_ifs <;> first | exact ‹False›.elim | rfl | decide
    · simp only [validateRecipeUpdate, h]
      split_ifs <;> first | exact ‹False›.elim | rfl | decide

theorem servings_number_check_witness :
    postRecipe sampleDb
        { name := some (.str "Toast"), instructions := some (.str "Grill"),
          servings := some (.str "two") }
      = .error (.validation (validateRecipeCreate
          { name := some (.str "Toast"), instructions := some (.str "Grill"),
            servings := some (.str "two") })) :=
  ((servings_number_check sampleDb
      { name := some (.str "Toast"), instructions := some (.str "Grill"),
        servings := some (.str "two") } (.str "two") rfl).2.1 rfl).2.2.1

end RecipeBook
